import Mathlib

/-!
Shallow embedding of the Vue 2 reactivity core found in this repository:
`Dep`/`Watcher` (src/src/core/observer/dep.js), and `Observer`/`observe`/
`defineReactive`/`set` (src/unnamed/part_001, core/observer/index.js).

JavaScript machine state is made explicit: the closure slot of a reactive
field, the `__ob__` mark on an object, a watcher's four dependency
collections, the global target stack, and the subscriber lists of all Deps
(as a map from Dep id to the list of subscriber watcher ids).
-/

namespace Vue

/-! ### JavaScript values

Only the features the reactivity code inspects are modelled: strict
equality (`===`, no coercion, `NaN === NaN` is false) and the
self-inequality test `x !== x`, which is true exactly for `NaN`.
Objects are reference identities. -/

inductive JSV where
  | num : Int → JSV
  | nan : JSV
  | str : String → JSV
  | boolean : Bool → JSV
  | undef : JSV
  | nullv : JSV
  | obj : Nat → JSV
  deriving DecidableEq, Repr

/-- JavaScript strict equality `===`: no coercion, `NaN` equal to nothing. -/
def strictEq : JSV → JSV → Bool
  | .num a, .num b => a == b
  | .str a, .str b => a == b
  | .boolean a, .boolean b => a == b
  | .undef, .undef => true
  | .nullv, .nullv => true
  | .obj a, .obj b => a == b
  | _, _ => false

/-- `x !== x` holds exactly for `NaN`. -/
def isNaNv : JSV → Bool
  | .nan => true
  | _ => false

/-! ### defineReactive's setter (src/unnamed/part_001 lines 279-302)

A reactive field closes over: the slot `val`, the pre-existing property
getter and setter (the getter is modelled by the value it currently
returns; the setter only by its presence, since its body is arbitrary
user code), and the `shallow` flag.  The effects a call to
`reactiveSetter` can have are recorded explicitly: the updated field
state, whether the pre-existing setter was invoked, whether `observe`
was called on the incoming value, how many times `dep.notify()` fired,
and whether the dev-mode `customSetter` hook ran. -/

structure RField where
  val : JSV
  getter : Option JSV
  hasSetter : Bool
  shallow : Bool
  deriving DecidableEq, Repr

structure SetEffect where
  fld : RField
  setterCalled : Bool
  observeCalled : Bool
  notifyCount : Nat
  customSetterCalled : Bool
  deriving DecidableEq, Repr

/-- `reactiveSetter` from `defineReactive` (src/unnamed/part_001:279-302):
```
const value = getter ? getter.call(obj) : val
if (newVal === value || (newVal !== newVal && value !== value)) return
if (dev && customSetter) customSetter()
if (getter && !setter) return        // #7981
if (setter) setter.call(obj, newVal) else val = newVal
childOb = !shallow && observe(newVal)
dep.notify()
``` -/
def reactiveSetter (f : RField) (newVal : JSV) (production hasCustom : Bool) : SetEffect :=
  let value := match f.getter with
    | some v => v
    | none => f.val
  if strictEq newVal value || (isNaNv newVal && isNaNv value) then
    ⟨f, false, false, 0, false⟩
  else
    let custom := !production && hasCustom
    if f.getter.isSome && !f.hasSetter then
      ⟨f, false, false, 0, custom⟩
    else
      let f' := if f.hasSetter then f else { f with val := newVal }
      ⟨f', f.hasSetter, !f.shallow, 1, custom⟩

/-! ### observe / Observer (src/unnamed/part_001 lines 110-215)

An object as `observe` inspects it: its `__ob__` mark (the id of the
Observer attached to it, if any), that Observer's `vmCount`, and the
classification flags the guard reads.  `observe` receives `none` for a
non-object (primitive) argument.  `walked` records whether the
`Observer` constructor ran, i.e. whether the object's fields were
(re-)wrapped by `walk`/`observeArray`. -/

structure VObj where
  hasOb : Option Nat
  vmCount : Nat
  isArray : Bool
  isPlain : Bool
  extensible : Bool
  isVue : Bool
  isVNode : Bool
  deriving DecidableEq, Repr

structure ObsEnv where
  shouldObserve : Bool
  serverRendering : Bool
  deriving DecidableEq, Repr

structure ObsResult where
  value : Option VObj
  ob : Option Nat
  walked : Bool
  nextOb : Nat
  deriving DecidableEq, Repr

/-- `observe(value, asRootData)` (src/unnamed/part_001:191-215): return
nothing for non-objects and VNodes; reuse an existing `__ob__`; otherwise,
when the guard allows it, construct a fresh `Observer` (which marks the
value with `__ob__` and walks its fields); finally bump `vmCount` when
`asRootData` and an observer exists. -/
def observe (env : ObsEnv) (v : Option VObj) (asRootData : Bool) (nextOb : Nat) :
    ObsResult :=
  match v with
  | none => ⟨none, none, false, nextOb⟩
  | some o =>
    if o.isVNode then ⟨some o, none, false, nextOb⟩
    else
      match o.hasOb with
      | some k =>
        let o' := if asRootData then { o with vmCount := o.vmCount + 1 } else o
        ⟨some o', some k, false, nextOb⟩
      | none =>
        if env.shouldObserve && !env.serverRendering && (o.isArray || o.isPlain)
            && o.extensible && !o.isVue then
          let o' := { o with hasOb := some nextOb }
          let o'' := if asRootData then { o' with vmCount := o'.vmCount + 1 } else o'
          ⟨some o'', some nextOb, true, nextOb + 1⟩
        else ⟨some o, none, false, nextOb⟩

/-! ### Claim theorems: the reactive setter -/

/-- C4 counterexample: the claim quantifies over *every* reactive field,
but for a field built over a pre-existing accessor property that has a
getter and no setter (issue #7981 guard, src/unnamed/part_001:291), a
write of a genuinely different value stores nothing and never announces
the Subject, contradicting the claim's "otherwise ... the Subject is
announced exactly once". -/
theorem reactiveSetter_announce_cex :
    strictEq (JSV.num 2) (JSV.num 1) = false ∧
    isNaNv (JSV.num 2) = false ∧
    (reactiveSetter ⟨JSV.undef, some (JSV.num 1), false, false⟩
        (JSV.num 2) false false).notifyCount = 0 ∧
    (reactiveSetter ⟨JSV.undef, some (JSV.num 1), false, false⟩
        (JSV.num 2) false false).fld = ⟨JSV.undef, some (JSV.num 1), false, false⟩ := by
  decide

/-- C4 (amended): for every reactive field installed over a plain data
property (no pre-existing getter or setter), if the incoming value is
strictly equal to the stored value, or both are NaN, the setter does
nothing — same field state, no observe call, no notify; otherwise the
new value is stored in the slot, it is handed to `observe` exactly when
the field is non-shallow, and the field's Subject is notified exactly
once. -/
theorem reactiveSetter_dataField (f : RField) (v : JSV) (p c : Bool)
    (hg : f.getter = none) (hs : f.hasSetter = false) :
    ((strictEq v f.val || (isNaNv v && isNaNv f.val)) = true →
      reactiveSetter f v p c = ⟨f, false, false, 0, false⟩) ∧
    ((strictEq v f.val || (isNaNv v && isNaNv f.val)) = false →
      (reactiveSetter f v p c).fld = { f with val := v } ∧
      (reactiveSetter f v p c).notifyCount = 1 ∧
      (reactiveSetter f v p c).observeCalled = !f.shallow ∧
      (reactiveSetter f v p c).setterCalled = false) := by
  constructor <;> intro h <;> simp [reactiveSetter, hg, hs, h]

/-- C4 witness. -/
theorem reactiveSetter_dataField_witness :
    ((strictEq (JSV.num 2) (RField.mk (JSV.num 1) none false false).val
        || (isNaNv (JSV.num 2) && isNaNv (RField.mk (JSV.num 1) none false false).val)) = true →
      reactiveSetter ⟨JSV.num 1, none, false, false⟩ (JSV.num 2) false false
        = ⟨⟨JSV.num 1, none, false, false⟩, false, false, 0, false⟩) ∧
    ((strictEq (JSV.num 2) (RField.mk (JSV.num 1) none false false).val
        || (isNaNv (JSV.num 2) && isNaNv (RField.mk (JSV.num 1) none false false).val)) = false →
      (reactiveSetter ⟨JSV.num 1, none, false, false⟩ (JSV.num 2) false false).fld
        = { RField.mk (JSV.num 1) none false false with val := JSV.num 2 } ∧
      (reactiveSetter ⟨JSV.num 1, none, false, false⟩ (JSV.num 2) false false).notifyCount = 1 ∧
      (reactiveSetter ⟨JSV.num 1, none, false, false⟩ (JSV.num 2) false false).observeCalled
        = !(RField.mk (JSV.num 1) none false false).shallow ∧
      (reactiveSetter ⟨JSV.num 1, none, false, false⟩ (JSV.num 2) false false).setterCalled
        = false) :=
  reactiveSetter_dataField ⟨JSV.num 1, none, false, false⟩ (JSV.num 2) false false rfl rfl

/-- C9: for a reactive field defined over a pre-existing accessor
property with a getter but no setter, every write through the reactive
setter is dropped: the closure slot is unchanged, the original setter is
(vacuously) not invoked, the written value is never handed to `observe`,
and the Subject is never notified — even when the written value differs
from the current one. -/
theorem reactiveSetter_getterNoSetter (f : RField) (g v : JSV) (p c : Bool)
    (hg : f.getter = some g) (hs : f.hasSetter = false) :
    (reactiveSetter f v p c).fld = f ∧
    (reactiveSetter f v p c).setterCalled = false ∧
    (reactiveSetter f v p c).observeCalled = false ∧
    (reactiveSetter f v p c).notifyCount = 0 := by
  simp only [reactiveSetter, hg, hs]
  split
  · exact ⟨rfl, rfl, rfl, rfl⟩
  · simp

/-- C9 witness (a write of `2` over a getter currently returning `1`). -/
theorem reactiveSetter_getterNoSetter_witness :
    (reactiveSetter ⟨JSV.undef, some (JSV.num 1), false, false⟩ (JSV.num 2) false false).fld
      = ⟨JSV.undef, some (JSV.num 1), false, false⟩ ∧
    (reactiveSetter ⟨JSV.undef, some (JSV.num 1), false, false⟩
        (JSV.num 2) false false).setterCalled = false ∧
    (reactiveSetter ⟨JSV.undef, some (JSV.num 1), false, false⟩
        (JSV.num 2) false false).observeCalled = false ∧
    (reactiveSetter ⟨JSV.undef, some (JSV.num 1), false, false⟩
        (JSV.num 2) false false).notifyCount = 0 :=
  reactiveSetter_getterNoSetter ⟨JSV.undef, some (JSV.num 1), false, false⟩
    (JSV.num 1) (JSV.num 2) false false rfl rfl

/-- C5: reification is idempotent — once a call to `observe` has produced
an Observer handle for a value, any further `observe` call on that value
(whatever the ambient flags are by then) returns the very same handle and
does not run the `Observer` constructor again, so no field is re-wrapped. -/
theorem observe_idempotent (env env' : ObsEnv) (v : Option VObj) (r r' : Bool)
    (n k : Nat) (h : (observe env v r n).ob = some k) :
    (observe env' (observe env v r n).value r' (observe env v r n).nextOb).ob = some k ∧
    (observe env' (observe env v r n).value r' (observe env v r n).nextOb).walked = false := by
  match v with
  | none => simp [observe] at h
  | some o =>
    by_cases hvn : o.isVNode
    · simp [observe, hvn] at h
    · match hob : o.hasOb with
      | some k0 =>
        cases r <;>
          simp_all [observe, hvn, hob]
      | none =>
        by_cases hguard : (env.shouldObserve && !env.serverRendering
            && (o.isArray || o.isPlain) && o.extensible && !o.isVue) = true
        · cases r <;> simp_all [observe, hvn, hob, hguard]
        · simp_all [observe, hvn, hob, hguard]

/-- C5 witness: a fresh plain object is observed, then observed again. -/
theorem observe_idempotent_witness :
    (observe ⟨true, false⟩
        (observe ⟨true, false⟩ (some ⟨none, 0, false, true, true, false, false⟩) false 0).value
        false
        (observe ⟨true, false⟩ (some ⟨none, 0, false, true, true, false, false⟩) false 0).nextOb).ob
      = some 0 ∧
    (observe ⟨true, false⟩
        (observe ⟨true, false⟩ (some ⟨none, 0, false, true, true, false, false⟩) false 0).value
        false
        (observe ⟨true, false⟩ (some ⟨none, 0, false, true, true, false, false⟩) false 0).nextOb).walked
      = false :=
  observe_idempotent ⟨true, false⟩ ⟨true, false⟩
    (some ⟨none, 0, false, true, true, false, false⟩) false false 0 0 (by decide)

/-! ### Dep and Watcher state (src/src/core/observer/dep.js)

`Subs` maps a Dep id to that Dep's `subs` array (the subscriber
watchers, by id).  `WState` is one Watcher's mutable state: its four
dependency collections (`deps`/`newDeps` are arrays of Dep ids — Dep
objects are identified by their unique `id` — and `depIds`/`newDepIds`
are the corresponding id sets), and the option flags.  `RS` is the
state a single watcher's run touches: all subscriber lists, the watcher
itself, and the module-global target stack (`Dep.target` is the top of
the stack, `none` when a null target was pushed or the stack is empty). -/

abbrev Subs := Nat → List Nat

/-- `Dep.addSub` (dep.js:24-26): `this.subs.push(sub)` — an unconditional
push, with no membership check. -/
def addSub (subs : Subs) (d wid : Nat) : Subs :=
  Function.update subs d (subs d ++ [wid])

/-- `Dep.removeSub` (dep.js:28-30): `remove(this.subs, sub)` removes the
first occurrence, if any (util `remove` is indexOf + splice). -/
def removeSub (subs : Subs) (d wid : Nat) : Subs :=
  Function.update subs d ((subs d).erase wid)

structure WState where
  id : Nat
  deps : List Nat
  newDeps : List Nat
  depIds : List Nat
  newDepIds : List Nat
  active : Bool
  lazy : Bool
  sync : Bool
  dirty : Bool
  user : Bool
  deriving DecidableEq, Repr

structure RS where
  subs : Subs
  w : WState
  targetStack : List (Option Nat)

/-- `pushTarget` (dep.js:60-63). -/
def pushTarget (t : Option Nat) (s : RS) : RS :=
  { s with targetStack := t :: s.targetStack }

/-- `popTarget` (dep.js:65-68). -/
def popTarget (s : RS) : RS :=
  { s with targetStack := s.targetStack.tail }

/-- `Dep.target`: the top of the target stack (null when empty). -/
def currentTarget (s : RS) : Option Nat :=
  s.targetStack.head?.join

/-- `Watcher.addDep` (dep.js:204-213): skip deps already collected this
run; record the dep in `newDepIds`/`newDeps`; call `dep.addSub(this)`
only when the dep was not already held from the previous run. -/
def addDep (s : RS) (d : Nat) : RS :=
  if d ∈ s.w.newDepIds then s
  else
    { s with
      w := { s.w with
              newDepIds := s.w.newDepIds ++ [d],
              newDeps := s.w.newDeps ++ [d] },
      subs := if d ∈ s.w.depIds then s.subs else addSub s.subs d s.w.id }

/-- `Dep.depend` (dep.js:32-36): `if (Dep.target) Dep.target.addDep(this)`.
This is a one-watcher model: a target other than the modelled watcher is
a no-op here. -/
def depend (s : RS) (d : Nat) : RS :=
  match currentTarget s with
  | some t => if t = s.w.id then addDep s d else s
  | none => s

/-- The `while (i--) { ... removeSub ... }` walk shared by
`Watcher.cleanupDeps` (dep.js:218-225, with `keep` = membership in
`newDepIds`) and `Watcher.teardown` (dep.js:310-313, `keep` constantly
false), iterating the `deps` array from the last element down. -/
def removeWalk (wid : Nat) (keep : Nat → Bool) (ds : List Nat) (sb : Subs) : Subs :=
  ds.foldl (fun acc d => if keep d then acc else removeSub acc d wid) sb

/-- `Watcher.cleanupDeps` (dep.js:218-234): unregister from every dep of
the previous run that was not re-collected, then swap `depIds := newDepIds`
and `deps := newDeps`, clearing the `new` pair. -/
def cleanupDeps (s : RS) : RS :=
  { s with
    subs := removeWalk s.w.id (fun d => decide (d ∈ s.w.newDepIds)) s.w.deps.reverse s.subs,
    w := { s.w with
            depIds := s.w.newDepIds,
            newDepIds := [],
            deps := s.w.newDeps,
            newDeps := [] } }

/-- The getter's observable behaviour during one run: the sequence of
Dep ids on which `dep.depend()` fired, in order (duplicates allowed). -/
def runGetter (s : RS) (touched : List Nat) : RS :=
  touched.foldl depend s

structure GetResult where
  st : RS
  handleErrorCalled : Bool
  thrown : Bool

/-- `Watcher.get` (dep.js:173-199): push this watcher as target, run the
getter (modelled by the deps it touches, plus whether it throws at the
end), route a failure to `handleError` when the watcher is user-supplied
and rethrow otherwise, and — in a `finally` — pop the target and
reconcile dependencies via `cleanupDeps`. -/
def get (s : RS) (touched : List Nat) (throws : Bool) : GetResult :=
  let s1 := pushTarget (some s.w.id) s
  let s2 := runGetter s1 touched
  let s3 := popTarget s2
  let s4 := cleanupDeps s3
  ⟨s4, throws && s2.w.user, throws && !s2.w.user⟩

/-- Well-formedness of a watcher's resting state (between runs), as
established by the constructor and re-established by every run: the
in-progress collections are empty, `deps` is duplicate-free and agrees
with the `depIds` set, and the watcher sits in exactly the subscriber
lists of its current deps, once each. -/
def Wf (s : RS) : Prop :=
  s.w.newDeps = [] ∧ s.w.newDepIds = [] ∧ s.w.deps.Nodup ∧
  (∀ d, d ∈ s.w.deps ↔ d ∈ s.w.depIds) ∧
  (∀ d, (s.subs d).count s.w.id = if d ∈ s.w.depIds then 1 else 0)

/-! ### Watcher.update (dep.js:240-249) -/

structure UpdateEffect where
  w : WState
  ranInline : Bool
  queued : Bool
  deriving DecidableEq, Repr

/-- `Watcher.update`: lazy watchers only flip `dirty`; sync watchers call
`run()` inline; all others are handed to `queueWatcher`. -/
def Watcher.update (w : WState) : UpdateEffect :=
  if w.lazy then ⟨{ w with dirty := true }, false, false⟩
  else if w.sync then ⟨w, true, false⟩
  else ⟨w, false, true⟩

/-! ### Dep.notify (dep.js:38-51) -/

/-- The comparator `(a, b) => a.id - b.id`: a stable ascending sort by
watcher id (insertion sort is stable, as `Array.prototype.sort` is
required to be). -/
def sortWatchers (l : List Nat) : List Nat :=
  List.insertionSort (· ≤ ·) l

/-- The order in which `notify` visits the snapshot: sorted ascending by
id only when not in production and `config.async` is off. -/
def notifyOrder (snapshot : List Nat) (production async : Bool) : List Nat :=
  if !production && !async then sortWatchers snapshot else snapshot

/-- `Dep.notify`: take a snapshot `subs.slice()` of dep `d`'s list, sort
it when (dev && !async), then call `update()` on each element in order.
`upd` is the arbitrary state mutation an `update()` call performs (it may
subscribe or unsubscribe watchers anywhere); the returned list records
the ids in the order their `update()` ran. -/
def notify (subs : Subs) (d : Nat) (production async : Bool)
    (upd : Nat → Subs → Subs) : Subs × List Nat :=
  let snapshot := subs d
  (notifyOrder snapshot production async).foldl
    (fun p wid => (upd wid p.1, p.2 ++ [wid])) (subs, [])

/-! ### Watcher.teardown (dep.js:303-316) -/

structure TState where
  subs : Subs
  w : WState
  vmWatchers : List Nat
  vmIsBeingDestroyed : Bool

/-- `Watcher.teardown`: when still active, remove this watcher from the
vm's `_watchers` list unless the vm is already being destroyed, then
unconditionally walk `deps` removing this watcher from every dep's
subscriber list, and mark the watcher inactive. -/
def teardown (s : TState) : TState :=
  if s.w.active then
    { s with
      vmWatchers := if s.vmIsBeingDestroyed then s.vmWatchers
                    else s.vmWatchers.erase s.w.id,
      subs := removeWalk s.w.id (fun _ => false) s.w.deps.reverse s.subs,
      w := { s.w with active := false } }
  else s

/-! ### Claim theorems: update dispatch and notify -/

/-- C6: `update()` dispatches exactly by mode — a lazy watcher only has
its dirty flag set (no inline run, no queueing; note `lazy` is tested
first, so it wins over `sync`); a non-lazy sync watcher runs inline and
is not queued; every other watcher is queued and not run inline, its
state untouched. -/
theorem watcher_update_dispatch (w : WState) :
    (Watcher.update w).ranInline = (!w.lazy && w.sync) ∧
    (Watcher.update w).queued = (!w.lazy && !w.sync) ∧
    (Watcher.update w).w = (if w.lazy then { w with dirty := true } else w) := by
  by_cases hl : w.lazy <;> by_cases hs : w.sync <;>
    simp [Watcher.update, hl, hs]

/-- Helper: the fold inside `notify` calls `update()` on exactly the
elements of the visit list, in order, whatever the updates do to the
subscriber state. -/
theorem notify_foldl_calls (upd : Nat → Subs → Subs) :
    ∀ (l : List Nat) (sb : Subs) (acc : List Nat),
      (l.foldl (fun p wid => (upd wid p.1, p.2 ++ [wid])) (sb, acc)).2 = acc ++ l := by
  intro l
  induction l with
  | nil => intro sb acc; simp
  | cons x xs ih => intro sb acc; simpa using ih (upd x sb) (acc ++ [x])

/-- C3 counterexample: with `config.async` off but in a production build,
`notify` does *not* sort the snapshot — a dep whose list is `[2, 1]`
fires watcher 2 before watcher 1, so the claim's "whenever
batched/asynchronous scheduling mode is off, that snapshot is sorted by
computation identity ascending" fails (the sort also requires a
development build, dep.js:41). -/
theorem dep_notify_sort_cex :
    (notify (fun _ => [2, 1]) 0 true false (fun _ sb => sb)).2 = [2, 1] ∧
    ¬ List.Sorted (· ≤ ·) ((notify (fun _ => [2, 1]) 0 true false (fun _ sb => sb)).2) := by
  decide

/-- C3 (amended): `notify` iterates over a snapshot of the subscriber
list taken at the moment of the call — the sequence of `update()` calls
is fully determined by that snapshot, no matter how the updates mutate
any subscriber list — and whenever async mode is off *and the build is a
development build*, the snapshot is sorted ascending by watcher id
before the calls fire (the visited sequence is an ascending permutation
of the snapshot). -/
theorem dep_notify_snapshot_sorted (subs : Subs) (d : Nat) (upd : Nat → Subs → Subs) :
    (∀ production async : Bool,
      (notify subs d production async upd).2 = notifyOrder (subs d) production async) ∧
    List.Sorted (· ≤ ·) ((notify subs d false false upd).2) ∧
    ((notify subs d false false upd).2).Perm (subs d) := by
  refine ⟨fun production async => ?_, ?_, ?_⟩
  · simpa using notify_foldl_calls upd (notifyOrder (subs d) production async) subs []
  · have h := notify_foldl_calls upd (notifyOrder (subs d) false false) subs []
    simp only [notify]
    rw [h]
    simpa [notifyOrder, sortWatchers] using List.sorted_insertionSort (· ≤ ·) (subs d)
  · have h := notify_foldl_calls upd (notifyOrder (subs d) false false) subs []
    simp only [notify]
    rw [h]
    simpa [notifyOrder, sortWatchers] using List.perm_insertionSort (· ≤ ·) (subs d)

/-! ### Helper lemmas about the dependency walk and collection -/

theorem removeWalk_apply (wid : Nat) (keep : Nat → Bool) :
    ∀ (ds : List Nat) (sb : Subs) (e : Nat), ds.Nodup →
      removeWalk wid keep ds sb e =
        if e ∈ ds ∧ keep e = false then (sb e).erase wid else sb e := by
  intro ds
  induction ds with
  | nil =>
    intro sb e _
    simp [removeWalk]
  | cons x xs ih =>
    intro sb e hnd
    obtain ⟨hx, hxs⟩ := List.nodup_cons.mp hnd
    have step : removeWalk wid keep (x :: xs) sb =
        removeWalk wid keep xs (if keep x then sb else removeSub sb x wid) := by
      by_cases hk : keep x <;> simp [removeWalk, hk]
    rw [step, ih _ e hxs]
    by_cases hex : e = x
    · subst hex
      have hnotin : ¬ (e ∈ xs ∧ keep e = false) := fun hc => hx hc.1
      rw [if_neg hnotin]
      by_cases hk : keep e
      · simp [hk]
      · simp [hk, removeSub, Function.update_same]
    · have hcol : (if keep x then sb else removeSub sb x wid) e = sb e := by
        by_cases hk : keep x <;>
          simp [hk, removeSub, Function.update_noteq hex]
      rw [hcol]
      by_cases hin : e ∈ xs ∧ keep e = false
      · rw [if_pos hin, if_pos ⟨List.mem_cons_of_mem x hin.1, hin.2⟩]
      · rw [if_neg hin, if_neg ?_]
        intro hc
        exact hin ⟨(List.mem_cons.mp hc.1).resolve_left hex, hc.2⟩

theorem addDep_w_id (s : RS) (d : Nat) : (addDep s d).w.id = s.w.id := by
  unfold addDep
  split <;> rfl

theorem addDep_depIds (s : RS) (d : Nat) : (addDep s d).w.depIds = s.w.depIds := by
  unfold addDep
  split <;> rfl

theorem addDep_deps (s : RS) (d : Nat) : (addDep s d).w.deps = s.w.deps := by
  unfold addDep
  split <;> rfl

theorem addDep_targetStack (s : RS) (d : Nat) :
    (addDep s d).targetStack = s.targetStack := by
  unfold addDep
  split <;> rfl

theorem addDep_user (s : RS) (d : Nat) : (addDep s d).w.user = s.w.user := by
  unfold addDep
  split <;> rfl

theorem addDep_newDepIds_mem (s : RS) (d x : Nat) :
    x ∈ (addDep s d).w.newDepIds ↔ x ∈ s.w.newDepIds ∨ x = d := by
  unfold addDep
  split
  · rename_i h
    constructor
    · exact Or.inl
    · rintro (h' | h')
      · exact h'
      · exact h' ▸ h
  · simp [List.mem_append]

/-- Invariant carried by the in-progress collections during a run:
`newDeps` has no duplicates and holds the same ids as `newDepIds`. -/
def NInv (s : RS) : Prop :=
  (∀ x, x ∈ s.w.newDeps ↔ x ∈ s.w.newDepIds) ∧ s.w.newDeps.Nodup

theorem addDep_NInv (s : RS) (d : Nat) (h : NInv s) : NInv (addDep s d) := by
  obtain ⟨hiff, hnd⟩ := h
  unfold addDep
  split
  · exact ⟨hiff, hnd⟩
  · rename_i hnin
    have hd : d ∉ s.w.newDeps := fun hc => hnin ((hiff d).mp hc)
    constructor
    · intro x
      simp [List.mem_append, hiff]
    · simp [List.nodup_append, hnd, List.disjoint_singleton, hd]

/-- Invariant on subscriber counts during a run: the watcher appears in a
dep's list exactly when the dep is held from the previous run or was
already collected this run, and then exactly once. -/
def CInv (s : RS) : Prop :=
  ∀ e, (s.subs e).count s.w.id =
    if e ∈ s.w.depIds ∨ e ∈ s.w.newDepIds then 1 else 0

theorem addDep_CInv (s : RS) (d : Nat) (h : CInv s) : CInv (addDep s d) := by
  intro e
  have he := h e
  have hid : (addDep s d).w.id = s.w.id := addDep_w_id s d
  unfold addDep at hid ⊢
  split
  · exact h e
  · rename_i hnin
    by_cases hdep : d ∈ s.w.depIds
    · simp only [if_pos hdep]
      by_cases hed : e = d
      · subst hed
        simp only [hdep, true_or, if_pos] at he
        simp [he, hdep]
      · simp only [List.mem_append, List.mem_singleton]
        rw [he]
        by_cases hcond : e ∈ s.w.depIds ∨ e ∈ s.w.newDepIds
        · rw [if_pos hcond, if_pos (by tauto)]
        · rw [if_neg hcond, if_neg (by tauto)]
    · simp only [if_neg hdep]
      by_cases hed : e = d
      · subst hed
        have hzero : (s.subs e).count s.w.id = 0 := by
          rw [he, if_neg (by tauto)]
        simp [addSub, Function.update_same, List.count_append, hzero]
      · have hcol : addSub s.subs d s.w.id e = s.subs e := by
          simp [addSub, Function.update_noteq hed]
        simp only [hcol, List.mem_append, List.mem_singleton]
        rw [he]
        by_cases hcond : e ∈ s.w.depIds ∨ e ∈ s.w.newDepIds
        · rw [if_pos hcond, if_pos (by tauto)]
        · rw [if_neg hcond, if_neg (by tauto)]

theorem foldl_addDep_pres {α : Type} (g : RS → α)
    (hg : ∀ s d, g (addDep s d) = g s) :
    ∀ (ts : List Nat) (s : RS), g (ts.foldl addDep s) = g s := by
  intro ts
  induction ts with
  | nil => intro s; rfl
  | cons t ts ih =>
    intro s
    rw [List.foldl_cons, ih, hg]

theorem foldl_addDep_newDepIds_mem :
    ∀ (ts : List Nat) (s : RS) (x : Nat),
      x ∈ (ts.foldl addDep s).w.newDepIds ↔ x ∈ s.w.newDepIds ∨ x ∈ ts := by
  intro ts
  induction ts with
  | nil =>
    intro s x
    simp
  | cons t ts ih =>
    intro s x
    rw [List.foldl_cons, ih, addDep_newDepIds_mem]
    simp [List.mem_cons]
    tauto

theorem foldl_addDep_NInv :
    ∀ (ts : List Nat) (s : RS), NInv s → NInv (ts.foldl addDep s) := by
  intro ts
  induction ts with
  | nil => intro s h; exact h
  | cons t ts ih =>
    intro s h
    rw [List.foldl_cons]
    exact ih _ (addDep_NInv s t h)

theorem foldl_addDep_CInv :
    ∀ (ts : List Nat) (s : RS), CInv s → CInv (ts.foldl addDep s) := by
  intro ts
  induction ts with
  | nil => intro s h; exact h
  | cons t ts ih =>
    intro s h
    rw [List.foldl_cons]
    exact ih _ (addDep_CInv s t h)

theorem runGetter_eq :
    ∀ (ts : List Nat) (s : RS), currentTarget s = some s.w.id →
      runGetter s ts = ts.foldl addDep s := by
  intro ts
  induction ts with
  | nil => intro s _; rfl
  | cons t ts ih =>
    intro s h
    have hstep : depend s t = addDep s t := by
      simp [depend, h]
    have h2 : currentTarget (addDep s t) = some (addDep s t).w.id := by
      unfold currentTarget
      rw [addDep_targetStack, addDep_w_id]
      exact h
    calc runGetter s (t :: ts)
        = runGetter (depend s t) ts := rfl
      _ = runGetter (addDep s t) ts := by rw [hstep]
      _ = ts.foldl addDep (addDep s t) := ih _ h2
      _ = (t :: ts).foldl addDep s := rfl

theorem cleanupDeps_spec (s : RS) (hnd : s.w.deps.Nodup)
    (hiff : ∀ d, d ∈ s.w.deps ↔ d ∈ s.w.depIds)
    (hninv : NInv s) (hcinv : CInv s) :
    (cleanupDeps s).w.id = s.w.id ∧
    (cleanupDeps s).targetStack = s.targetStack ∧
    (cleanupDeps s).w.depIds = s.w.newDepIds ∧
    (∀ d, d ∈ (cleanupDeps s).w.deps ↔ d ∈ s.w.newDepIds) ∧
    Wf (cleanupDeps s) ∧
    (∀ e, ((cleanupDeps s).subs e).count s.w.id =
      if e ∈ s.w.newDepIds then 1 else 0) := by
  have hsubs : ∀ e, (cleanupDeps s).subs e =
      if e ∈ s.w.deps.reverse ∧ (decide (e ∈ s.w.newDepIds)) = false
      then (s.subs e).erase s.w.id else s.subs e := by
    intro e
    exact removeWalk_apply _ _ _ _ e (by simpa using hnd)
  have hcount : ∀ e, ((cleanupDeps s).subs e).count s.w.id =
      if e ∈ s.w.newDepIds then 1 else 0 := by
    intro e
    rw [hsubs e]
    by_cases hn : e ∈ s.w.newDepIds
    · rw [if_neg (by simp [hn]), if_pos hn]
      have h1 := hcinv e
      rw [if_pos (Or.inr hn)] at h1
      exact h1
    · by_cases hin : e ∈ s.w.deps
      · rw [if_pos ⟨by simpa using hin, by simp [hn]⟩, if_neg hn]
        have h1 := hcinv e
        rw [if_pos (Or.inl ((hiff e).mp hin))] at h1
        rw [List.count_erase_self, h1]
      · rw [if_neg (by simp [hn, hin]), if_neg hn]
        have h1 := hcinv e
        rw [if_neg (by rw [← hiff e]; tauto)] at h1
        exact h1
  refine ⟨rfl, rfl, rfl, ?_, ?_, hcount⟩
  · intro d
    exact hninv.1 d
  · refine ⟨rfl, rfl, hninv.2, hninv.1, ?_⟩
    intro d
    exact hcount d

/-- Full characterization of one run of `Watcher.get`, shared by the
claims about dependency reconciliation, subscriber uniqueness and error
routing: starting from a well-formed resting state, a run that touches
`touched` and possibly throws ends with the watcher's id and the target
stack unchanged, its dependency set (ids, dep list, and subscriber
membership counts) exactly the set of touched deps, the state well-formed
again, the error handled exactly when the watcher is user-supplied, and
the exception propagated exactly otherwise. -/
theorem get_spec (s : RS) (touched : List Nat) (throws : Bool) (hwf : Wf s) :
    (get s touched throws).st.w.id = s.w.id ∧
    (get s touched throws).st.targetStack = s.targetStack ∧
    (∀ d, d ∈ (get s touched throws).st.w.depIds ↔ d ∈ touched) ∧
    (∀ d, d ∈ (get s touched throws).st.w.deps ↔ d ∈ touched) ∧
    (∀ d, ((get s touched throws).st.subs d).count s.w.id =
      if d ∈ touched then 1 else 0) ∧
    Wf (get s touched throws).st ∧
    (get s touched throws).handleErrorCalled = (throws && s.w.user) ∧
    (get s touched throws).thrown = (throws && !s.w.user) := by
  obtain ⟨hne, hni, hnd, hiff, hcount⟩ := hwf
  have htgt : currentTarget (pushTarget (some s.w.id) s) =
      some (pushTarget (some s.w.id) s).w.id := by
    simp [currentTarget, pushTarget]
  have hrun : runGetter (pushTarget (some s.w.id) s) touched =
      touched.foldl addDep (pushTarget (some s.w.id) s) :=
    runGetter_eq touched _ htgt
  have hget : get s touched throws =
      ⟨cleanupDeps (popTarget (touched.foldl addDep (pushTarget (some s.w.id) s))),
       throws && (touched.foldl addDep (pushTarget (some s.w.id) s)).w.user,
       throws && !(touched.foldl addDep (pushTarget (some s.w.id) s)).w.user⟩ := by
    simp only [get, hrun]
  set s1 := pushTarget (some s.w.id) s with hs1
  set s2 := touched.foldl addDep s1 with hs2
  have hid2 : s2.w.id = s.w.id :=
    foldl_addDep_pres (fun s => s.w.id) addDep_w_id touched s1
  have hdepIds2 : s2.w.depIds = s.w.depIds :=
    foldl_addDep_pres (fun s => s.w.depIds) addDep_depIds touched s1
  have hdeps2 : s2.w.deps = s.w.deps :=
    foldl_addDep_pres (fun s => s.w.deps) addDep_deps touched s1
  have hts2 : s2.targetStack = some s.w.id :: s.targetStack :=
    foldl_addDep_pres (fun s => s.targetStack) addDep_targetStack touched s1
  have huser2 : s2.w.user = s.w.user :=
    foldl_addDep_pres (fun s => s.w.user) addDep_user touched s1
  have hmem2 : ∀ x, x ∈ s2.w.newDepIds ↔ x ∈ touched := by
    intro x
    rw [hs2, foldl_addDep_newDepIds_mem]
    simp [hs1, pushTarget, hni]
  have hninv2 : NInv s2 := by
    refine foldl_addDep_NInv touched s1 ⟨?_, ?_⟩
    · intro x
      simp [hs1, pushTarget, hne, hni]
    · simp [hs1, pushTarget, hne]
  have hcinv2 : CInv s2 := by
    refine foldl_addDep_CInv touched s1 ?_
    intro e
    simp only [hs1, pushTarget]
    rw [hni]
    simpa using hcount e
  set s3 := popTarget s2 with hs3
  have h3id : s3.w = s2.w := rfl
  have h3ts : s3.targetStack = s.targetStack := by
    simp [hs3, popTarget, hts2]
  have h3subs : s3.subs = s2.subs := rfl
  have hclean := cleanupDeps_spec s3 (by rw [h3id, hdeps2]; exact hnd)
    (by intro d; rw [h3id, hdeps2, hdepIds2]; exact hiff d)
    (by obtain ⟨a, b⟩ := hninv2; exact ⟨fun x => a x, b⟩)
    (by intro e; rw [h3subs, h3id]; exact hcinv2 e)
  obtain ⟨hc1, hc2, hc3, hc4, hc5, hc6⟩ := hclean
  rw [hget]
  refine ⟨?_, ?_, ?_, ?_, ?_, ?_, ?_, ?_⟩
  · rw [hc1, h3id, hid2]
  · rw [hc2, h3ts]
  · intro d
    rw [hc3, h3id]
    exact hmem2 d
  · intro d
    rw [hc4 d, h3id]
    exact hmem2 d
  · intro d
    have := hc6 d
    rw [h3id, hid2] at this
    rw [this]
    by_cases hdm : d ∈ touched
    · rw [if_pos ((hmem2 d).mpr hdm), if_pos hdm]
    · rw [if_neg (fun hc => hdm ((hmem2 d).mp hc)), if_neg hdm]
  · exact hc5
  · rw [huser2]
  · rw [huser2]

/-! ### Claim theorems: dependency reconciliation, uniqueness, error
routing, teardown -/

/-- A fresh watcher (id 7) with no dependencies, as the Watcher
constructor leaves it; used to instantiate run theorems. -/
def freshRS : RS :=
  ⟨fun _ => [], ⟨7, [], [], [], [], true, false, false, false, false⟩, []⟩

theorem freshRS_wf : Wf freshRS := by
  refine ⟨rfl, rfl, List.nodup_nil, ?_, ?_⟩ <;> intro d <;> simp [freshRS]

/-- A fresh user-mode watcher, same shape with `user` set. -/
def freshUserRS : RS :=
  ⟨fun _ => [], ⟨7, [], [], [], [], true, false, false, false, true⟩, []⟩

theorem freshUserRS_wf : Wf freshUserRS := by
  refine ⟨rfl, rfl, List.nodup_nil, ?_, ?_⟩ <;> intro d <;> simp [freshUserRS]

/-- C1: after any run of `get()` — throwing or not — the watcher's
dependency set (both the `depIds` id set and the `deps` array) is exactly
the set of deps whose `depend()` fired during the run, and the watcher
sits in a dep's subscriber list exactly when that dep was touched this
run: stale subscriptions are removed, new ones are present. -/
theorem watcher_get_reconciles (s : RS) (touched : List Nat) (throws : Bool)
    (hwf : Wf s) :
    (∀ d, d ∈ (get s touched throws).st.w.depIds ↔ d ∈ touched) ∧
    (∀ d, d ∈ (get s touched throws).st.w.deps ↔ d ∈ touched) ∧
    (∀ d, s.w.id ∈ (get s touched throws).st.subs d ↔ d ∈ touched) := by
  obtain ⟨_, _, h3, h4, h5, _, _, _⟩ := get_spec s touched throws hwf
  refine ⟨h3, h4, ?_⟩
  intro d
  have hpos : s.w.id ∈ (get s touched throws).st.subs d ↔
      0 < ((get s touched throws).st.subs d).count s.w.id :=
    List.count_pos_iff.symm
  rw [hpos, h5 d]
  by_cases hd : d ∈ touched <;> simp [hd]

/-- C1 witness: a fresh watcher whose run touches deps 1, 2 and 1 again. -/
theorem watcher_get_reconciles_witness :
    (∀ d, d ∈ (get freshRS [1, 2, 1] true).st.w.depIds ↔ d ∈ [1, 2, 1]) ∧
    (∀ d, d ∈ (get freshRS [1, 2, 1] true).st.w.deps ↔ d ∈ [1, 2, 1]) ∧
    (∀ d, freshRS.w.id ∈ (get freshRS [1, 2, 1] true).st.subs d ↔ d ∈ [1, 2, 1]) :=
  watcher_get_reconciles freshRS [1, 2, 1] true freshRS_wf

/-- C2 counterexample: `Dep.addSub` itself performs an unconditional
`push` with no membership check — adding a watcher that is already
subscribed duplicates it, so "addSub appends only if not already
present" is false of the code. -/
theorem dep_addSub_duplicate_cex :
    (addSub (fun _ => [5]) 0 5) 0 = [5, 5] ∧
    ((addSub (fun _ => [5]) 0 5) 0).count 5 = 2 := by
  constructor <;> rfl

/-- C2 (amended): `Dep.addSub` appends unconditionally; the membership
guard lives in its only caller `Watcher.addDep`, which calls `addSub`
only for a dep in neither `newDepIds` nor `depIds`.  Under the run
protocol this keeps the invariant: starting from a well-formed state, a
full `get()` run leaves every subscriber list containing the watcher at
most once, and the state well-formed again (so the invariant holds at
every state reachable by runs). -/
theorem subscriber_at_most_once (s : RS) (touched : List Nat) (throws : Bool)
    (hwf : Wf s) :
    (∀ d, ((get s touched throws).st.subs d).count s.w.id ≤ 1) ∧
    Wf (get s touched throws).st := by
  obtain ⟨_, _, _, _, h5, h6, _, _⟩ := get_spec s touched throws hwf
  refine ⟨?_, h6⟩
  intro d
  rw [h5 d]
  by_cases hd : d ∈ touched <;> simp [hd]

/-- C2 witness: a run touching dep 3 twice still subscribes once. -/
theorem subscriber_at_most_once_witness :
    (∀ d, ((get freshUserRS [3, 3] false).st.subs d).count freshUserRS.w.id ≤ 1) ∧
    Wf (get freshUserRS [3, 3] false).st :=
  subscriber_at_most_once freshUserRS [3, 3] false freshUserRS_wf

/-- C7: when the wrapped getter throws during `get()`: a user watcher
routes the failure to `handleError` and `get` does not propagate it, an
internal watcher propagates it; in both cases the target stack is
restored to its pre-call value (push/pop strictly paired via `finally`),
and dependency reconciliation ran before exit — the dependency set
equals the deps touched before the throw and the in-progress collections
are cleared. -/
theorem watcher_get_error_routing (s : RS) (touched : List Nat) (hwf : Wf s) :
    (get s touched true).handleErrorCalled = s.w.user ∧
    (get s touched true).thrown = !s.w.user ∧
    (get s touched true).st.targetStack = s.targetStack ∧
    (∀ d, d ∈ (get s touched true).st.w.depIds ↔ d ∈ touched) ∧
    (get s touched true).st.w.newDepIds = [] ∧
    (get s touched true).st.w.newDeps = [] := by
  obtain ⟨_, h2, h3, _, _, h6, h7, h8⟩ := get_spec s touched true hwf
  exact ⟨by rw [h7]; simp, by rw [h8]; simp, h2, h3, h6.2.1, h6.1⟩

/-- C7 witness: a user watcher whose getter touches dep 4 then throws. -/
theorem watcher_get_error_routing_witness :
    (get freshUserRS [4] true).handleErrorCalled = freshUserRS.w.user ∧
    (get freshUserRS [4] true).thrown = !freshUserRS.w.user ∧
    (get freshUserRS [4] true).st.targetStack = freshUserRS.targetStack ∧
    (∀ d, d ∈ (get freshUserRS [4] true).st.w.depIds ↔ d ∈ [4]) ∧
    (get freshUserRS [4] true).st.w.newDepIds = [] ∧
    (get freshUserRS [4] true).st.w.newDeps = [] :=
  watcher_get_error_routing freshUserRS [4] freshUserRS_wf

/-- An active watcher (id 7) holding dep 0, whose vm is being destroyed:
instantiates the teardown claims. -/
def destroyedTS : TState :=
  ⟨fun _ => [7], ⟨7, [0], [], [0], [], true, false, false, false, false⟩, [7], true⟩

/-- C8 counterexample: with the vm already being torn down
(`_isBeingDestroyed`), `teardown` still walks the watcher's deps and
unregisters it from each — dep 0's subscriber list goes from `[7]` to
`[]`.  What the destroyed-vm test skips is only the removal from the
vm's `_watchers` list (dep.js:307-309), not the unregistration walk, so
the claim's "the unregistration walk over its Subjects is skipped" is
false of the code. -/
theorem watcher_teardown_skip_cex :
    destroyedTS.vmIsBeingDestroyed = true ∧
    destroyedTS.subs 0 = [7] ∧
    (teardown destroyedTS).subs 0 = [] ∧
    (teardown destroyedTS).vmWatchers = [7] := by
  refine ⟨rfl, rfl, ?_, rfl⟩
  rfl

/-- C8 (amended): `teardown` on an active watcher always unregisters it
from every dep it holds and marks it inactive, and a second call is a
no-op; when the owning vm is already being destroyed it is only the
removal of the watcher from the vm's `_watchers` list that is skipped
(otherwise that removal happens); the walk over the deps runs in every
case. -/
theorem watcher_teardown_spec (s : TState)
    (hnd : s.w.deps.Nodup)
    (hcount : ∀ d, (s.subs d).count s.w.id ≤ 1) :
    (s.w.active = true → ∀ d, d ∈ s.w.deps → s.w.id ∉ (teardown s).subs d) ∧
    (teardown s).w.active = false ∧
    teardown (teardown s) = teardown s ∧
    (s.vmIsBeingDestroyed = true → (teardown s).vmWatchers = s.vmWatchers) ∧
    (s.vmIsBeingDestroyed = false → s.w.active = true →
      (teardown s).vmWatchers = s.vmWatchers.erase s.w.id) := by
  by_cases hact : s.w.active
  · have hsubs : ∀ e, (teardown s).subs e =
        if e ∈ s.w.deps.reverse ∧ (false = false)
        then (s.subs e).erase s.w.id else s.subs e := by
      intro e
      have ht : (teardown s).subs =
          removeWalk s.w.id (fun _ => false) s.w.deps.reverse s.subs := by
        simp [teardown, hact]
      rw [ht]
      exact removeWalk_apply _ _ _ _ e (by simpa using hnd)
    refine ⟨?_, ?_, ?_, ?_, ?_⟩
    · intro _ d hd
      rw [hsubs d, if_pos ⟨by simpa using hd, rfl⟩]
      intro hmem
      have hpos := List.count_pos_iff.mpr hmem
      rw [List.count_erase_self] at hpos
      have := hcount d
      omega
    · simp [teardown, hact]
    · have h1 : (teardown s).w.active = false := by simp [teardown, hact]
      conv_lhs => rw [teardown]
      rw [if_neg (by simp [h1])]
    · intro hbd
      simp [teardown, hact, hbd]
    · intro hbd _
      simp [teardown, hact, hbd]
  · have hs : teardown s = s := by simp [teardown, hact]
    refine ⟨?_, ?_, ?_, ?_, ?_⟩
    · intro hc
      exact absurd hc hact
    · rw [hs]
      exact Bool.not_eq_true _ |>.mp hact
    · rw [hs, hs]
    · intro _
      rw [hs]
    · intro _ hc
      exact absurd hc hact

/-- C8 witness: an active watcher holding dep 0, vm not being
destroyed, is unregistered from dep 0 by teardown. -/
theorem watcher_teardown_spec_witness :
    (7 : Nat) ∉
      (teardown (TState.mk (fun _ => [7])
        ⟨7, [0], [], [0], [], true, false, false, false, false⟩ [7] false)).subs 0 :=
  (watcher_teardown_spec
    (TState.mk (fun _ => [7]) ⟨7, [0], [], [0], [], true, false, false, false, false⟩ [7] false)
    (by simp) (by intro d; simp)).1 rfl 0 (by simp)

/-! ### set (src/unnamed/part_001 lines 310-340)

A `set` target as the helper inspects it: whether it is an array (with
its elements), its key set (own and inherited keys except those of
`Object.prototype`), the `_isVue` mark, and its `__ob__`'s `vmCount`
(`none` when the target is not observed). -/

inductive VKey where
  | idx : Nat → VKey
  | name : String → VKey
  deriving DecidableEq, Repr

/-- `isValidArrayIndex` (shared/util): a non-negative finite integer. -/
def isValidArrayIndex : VKey → Bool
  | .idx _ => true
  | .name _ => false

def keyIdx : VKey → Nat
  | .idx n => n
  | .name _ => 0

structure STarget where
  isArray : Bool
  elems : List JSV
  keys : List VKey
  isVue : Bool
  obVmCount : Option Nat
  deriving DecidableEq, Repr

/-- The `key in target && !(key in Object.prototype)` test: for an array
an index key is present when it is below the length, otherwise key-set
membership. -/
def hasKey (t : STarget) (k : VKey) : Bool :=
  match k with
  | .idx n => if t.isArray then decide (n < t.elems.length) else t.keys.contains k
  | .name _ => t.keys.contains k

structure SetOut where
  target : STarget
  notified : Bool
  definedReactive : Bool
  assignedExisting : Bool
  warned : Bool
  ret : JSV
  deriving DecidableEq, Repr

/-- `target.length = Math.max(target.length, key); target.splice(key, 1, val)`:
replace in range, otherwise pad with holes up to `key` and append. -/
def spliceSet (l : List JSV) (n : Nat) (v : JSV) : List JSV :=
  if n < l.length then l.set n v
  else l ++ List.replicate (n - l.length) JSV.undef ++ [v]

/-- `set(target, key, val)` (src/unnamed/part_001:310-340).  The array
branch calls the intercepted `splice`; that this wrapped mutator
announces the array's own Subject when the array is observed is
modelled from the spec (§4.1: the mutating array method surface
announces the array's Subject; core/observer/array.js is not under
src/).  Everything else follows the source: an existing key is assigned
directly; a Vue instance or a root `$data` target (positive `vmCount`)
is rejected with a dev warning and no mutation; an unobserved target
gets a plain property; an observed one gets `defineReactive` plus a
notify on the target's own Subject. -/
def vueSet (t : STarget) (k : VKey) (v : JSV) (production : Bool) : SetOut :=
  if t.isArray && isValidArrayIndex k then
    ⟨{ t with elems := spliceSet t.elems (keyIdx k) v },
      t.obVmCount.isSome, false, false, false, v⟩
  else if hasKey t k then
    ⟨t, false, false, true, false, v⟩
  else if t.isVue || (t.obVmCount.getD 0 != 0) then
    ⟨t, false, false, false, !production, v⟩
  else
    match t.obVmCount with
    | none => ⟨{ t with keys := t.keys ++ [k] }, false, false, false, false, v⟩
    | some _ => ⟨{ t with keys := t.keys ++ [k] }, true, true, false, false, v⟩

/-- An observed array `[1, 2]` serving as some instance's root `$data`
(`vmCount = 1`). -/
def rootArr : STarget := ⟨true, [JSV.num 1, JSV.num 2], [], false, some 1⟩

/-- C10 counterexample: the array fast path runs *before* the
vmCount guard (src/unnamed/part_001:316-320 vs 326), so on an observed
array that is a root `$data` (`vmCount = 1`), `set` with a fresh valid
index does add the property: the element appears and the target
changes, contrary to the claim's "the property is not added ... the
target's state is unchanged". -/
theorem vueSet_rootArray_cex :
    hasKey rootArr (VKey.idx 5) = false ∧
    rootArr.obVmCount = some 1 ∧
    (vueSet rootArr (VKey.idx 5) (JSV.num 9) false).target.elems
      = [JSV.num 1, JSV.num 2, JSV.undef, JSV.undef, JSV.undef, JSV.num 9] ∧
    (vueSet rootArr (VKey.idx 5) (JSV.num 9) false).target ≠ rootArr := by
  decide

/-- C10 (amended): for a `set` call that does not take the array
fast path (the target is not an array with a valid index key), with a
key not present on the target, if the target is a Vue instance or some
instance's root `$data` (positive `vmCount`), then nothing happens: the
target is unchanged, no Subject is notified, no reactive property is
defined, and the given value is returned (with a warning outside
production builds). -/
theorem vueSet_guard (t : STarget) (k : VKey) (v : JSV) (p : Bool)
    (harr : (t.isArray && isValidArrayIndex k) = false)
    (hkey : hasKey t k = false)
    (hguard : (t.isVue || (t.obVmCount.getD 0 != 0)) = true) :
    (vueSet t k v p).target = t ∧
    (vueSet t k v p).notified = false ∧
    (vueSet t k v p).definedReactive = false ∧
    (vueSet t k v p).assignedExisting = false ∧
    (vueSet t k v p).warned = !p ∧
    (vueSet t k v p).ret = v := by
  simp [vueSet, harr, hkey, hguard]

/-- C10 witness: adding a new key to a Vue instance is rejected. -/
theorem vueSet_guard_witness :
    (vueSet ⟨false, [], [VKey.name "a"], true, none⟩ (VKey.name "b") (JSV.num 1) false).target
      = ⟨false, [], [VKey.name "a"], true, none⟩ ∧
    (vueSet ⟨false, [], [VKey.name "a"], true, none⟩ (VKey.name "b") (JSV.num 1) false).notified
      = false ∧
    (vueSet ⟨false, [], [VKey.name "a"], true, none⟩ (VKey.name "b") (JSV.num 1) false).definedReactive
      = false ∧
    (vueSet ⟨false, [], [VKey.name "a"], true, none⟩ (VKey.name "b") (JSV.num 1) false).assignedExisting
      = false ∧
    (vueSet ⟨false, [], [VKey.name "a"], true, none⟩ (VKey.name "b") (JSV.num 1) false).warned
      = !false ∧
    (vueSet ⟨false, [], [VKey.name "a"], true, none⟩ (VKey.name "b") (JSV.num 1) false).ret
      = JSV.num 1 :=
  vueSet_guard ⟨false, [], [VKey.name "a"], true, none⟩ (VKey.name "b") (JSV.num 1) false
    (by decide) (by decide) (by decide)

end Vue
